import Mathlib

/-!
Verification of the additional-typenames detector of
`urql-exhaustive-additional-typenames-exchange` (src/index.ts).

The GraphQL schema's type representation is embedded as a closed tagged
structure: a named type definition carries a kind tag (object, interface,
scalar, enum, union, input object) and its field definitions; a field's
declared output type is a wrapper tree over a type name.  In graphql-js a
wrapper tree bottoms out at the canonical named-type object registered in
the schema, so an `instanceof` test on the named type of a field equals a
kind test on the schema's definition for that name; the embedding stores
the name and looks the definition up in the schema at the points where the
source inspects the object.
-/

/-- Kind tag of a named GraphQL type (GraphQLObjectType, GraphQLInterfaceType,
GraphQLScalarType, GraphQLEnumType, GraphQLUnionType, GraphQLInputObjectType
in graphql-js). -/
inductive GTypeKind where
  | object
  | interface
  | scalar
  | enum
  | union
  | inputObject
deriving DecidableEq, Repr

/-- A GraphQLOutputType: a named type possibly wrapped in GraphQLList and
GraphQLNonNull layers, arbitrarily nested.  The named leaf stores the type
name; the schema maps names to definitions. -/
inductive GOutputType where
  | named (name : String)
  | list (ofType : GOutputType)
  | nonNull (ofType : GOutputType)
deriving DecidableEq, Repr

/-- A field definition of an object or interface type: its name and declared
output type. -/
structure GFieldDef where
  name : String
  type : GOutputType
deriving DecidableEq, Repr

/-- A named type definition in the schema.  For kinds other than object and
interface the `fields` list is irrelevant (the source never asks a scalar,
enum or union for fields). -/
structure GTypeDef where
  name : String
  kind : GTypeKind
  fields : List GFieldDef
deriving DecidableEq, Repr

/-- A GraphQLSchema: the registered named types and the name of the root
query type, when one is configured. -/
structure GSchema where
  types : List GTypeDef
  queryTypeName : Option String
deriving DecidableEq, Repr

namespace GSchema

/-- `schema.getType(name)`: look up a named type definition.  graphql-js keys
types by name in a map with unique keys; the embedding finds the first
definition with the name. -/
def getType (schema : GSchema) (name : String) : Option GTypeDef :=
  schema.types.find? (fun td => td.name = name)

/-- `schema.getQueryType()`: the definition of the configured root query type,
or none when the schema exposes no query type. -/
def getQueryType (schema : GSchema) : Option GTypeDef :=
  schema.queryTypeName.bind (fun n => schema.getType n)

end GSchema

/-- `parentType.getFields()[fieldName]`: field lookup on an object or
interface definition.  Field names are unique in a valid schema; the
embedding finds the first field with the name. -/
def getField (td : GTypeDef) (fieldName : String) : Option GFieldDef :=
  td.fields.find? (fun f => f.name = fieldName)

/-- `isTypeWithFields(type)` from src/index.ts: the argument is a named type
or undefined, and the test is `instanceof GraphQLObjectType || instanceof
GraphQLInterfaceType`. -/
def isTypeWithFields : Option GTypeDef → Bool
  | some td => td.kind = GTypeKind.object ∨ td.kind = GTypeKind.interface
  | none => false

/-- `isListType(type)` from src/index.ts: recursively unwraps GraphQLNonNull,
then tests `instanceof GraphQLList`. -/
def isListType : GOutputType → Bool
  | GOutputType.nonNull t => isListType t
  | GOutputType.list _ => true
  | GOutputType.named _ => false

/-- `getNamedType(type)` from src/index.ts: strips every GraphQLNonNull and
GraphQLList wrapper and reaches the innermost named type.  The embedding
returns that type's name (graphql-js returns the canonical type object of
the same name). -/
def getNamedType : GOutputType → String
  | GOutputType.nonNull t => getNamedType t
  | GOutputType.list t => getNamedType t
  | GOutputType.named n => n

/-- The `.ofType` accessor used at `field.type.ofType` in
`addListFieldToAdditionalTypenames`.  It is only reached when
`isListType field.type` holds, so the wrapper is a list or non-null node;
the named case is unreachable under that guard. -/
def ofTypeOf : GOutputType → GOutputType
  | GOutputType.list t => t
  | GOutputType.nonNull t => t
  | GOutputType.named n => GOutputType.named n

/-- `instanceof GraphQLInterfaceType` on the named type of a field, expressed
on the schema's definition for that name. -/
def isInterfaceType : Option GTypeDef → Bool
  | some td => td.kind = GTypeKind.interface
  | none => false

/-- A selection node in a selection set: a field (optional nested selection
set modeled as a possibly empty list, matching
`fieldNode.selectionSet?.selections || []`), a fragment spread, or an
inline fragment with an optional type condition. -/
inductive Selection where
  | field (name : String) (selections : List Selection)
  | fragmentSpread (name : String)
  | inlineFragment (typeCondition : Option String) (selections : List Selection)

/-- A FragmentDefinitionNode: name, type condition name, selection set. -/
structure FragmentDefinitionNode where
  name : String
  typeCondition : String
  selections : List Selection

/-- A definition of the query document: an operation definition or a fragment
definition (the two executable definition kinds the source dispatches on). -/
inductive Definition where
  | operation (selections : List Selection)
  | fragmentDef (f : FragmentDefinitionNode)

/-- Insertion into the detector's `Set<string>`: a JS Set keeps insertion
order and re-adding an existing element leaves its position unchanged. -/
def addTypename (acc : List String) (n : String) : List String :=
  if n ∈ acc then acc else acc ++ [n]

/-- `addListFieldToAdditionalTypenames(field)`: when the field's type is a
list (after non-null unwrapping), add the name of the named type reached
from one `.ofType` step (the remaining wrappers are stripped by
`getNamedType`). -/
def addListFieldToAdditionalTypenames (field : GFieldDef) (acc : List String) :
    List String :=
  if isListType field.type then
    addTypename acc (getNamedType (ofTypeOf field.type))
  else
    acc

/-- `resolveFragment(fragmentName)`: filter the document's fragment
definitions and look the name up in a `Map` built from (name, definition)
pairs.  A JS Map built from a pair list keeps, for a duplicated key, the
value of the last pair; the fold overwrites earlier matches accordingly. -/
def resolveFragment (defs : List Definition) (fragmentName : String) :
    Option FragmentDefinitionNode :=
  let fragments := defs.filterMap (fun d =>
    match d with
    | Definition.fragmentDef f => some f
    | Definition.operation _ => none)
  fragments.foldl
    (fun found f => if f.name = fragmentName then some f else found) none

/-- The mutually recursive walk `exploreSelections` / `exploreField` /
`exploreFragmentSpread` / `exploreInlineFragment` of the
AdditionalTypenamesDetector, with the accumulated `Set<string>` threaded as
an insertion-ordered list.  Recursion is made structural on a fuel counter
decremented at each dispatch; for any document on which the source
terminates (fragment spreads are acyclic in GraphQL-legal documents) a
large enough fuel reproduces the source's run exactly, and fuel 0 returns
the accumulator unchanged. -/
def exploreSelections (schema : GSchema) (defs : List Definition) :
    Nat → Selection → Option GTypeDef → Bool → List String → List String
  | 0, _, _, _, acc => acc
  | Nat.succ fuel, Selection.field fieldName sels, parentType, _, acc =>
    -- exploreField(fieldNode, parentType)
    match parentType with
    | none => acc
    | some pt =>
      if isTypeWithFields (some pt) then
        match getField pt fieldName with
        | none => acc
        | some field =>
          let fieldType := schema.getType (getNamedType field.type)
          let acc1 :=
            if isInterfaceType fieldType then acc
            else addListFieldToAdditionalTypenames field acc
          let fieldIsList := isListType field.type
          sels.foldl
            (fun a s => exploreSelections schema defs fuel s fieldType fieldIsList a)
            acc1
      else acc
  | Nat.succ fuel, Selection.fragmentSpread fragmentName, _, isList, acc =>
    -- exploreFragmentSpread(fragmentSpreadNode, isList)
    match resolveFragment defs fragmentName with
    | none => acc
    | some foundFragment =>
      match schema.getType foundFragment.typeCondition with
      | none => acc
      | some fragmentOnType =>
        if isTypeWithFields (some fragmentOnType) then
          foundFragment.selections.foldl
            (fun a s =>
              exploreSelections schema defs fuel s (some fragmentOnType) isList a)
            acc
        else acc
  | Nat.succ fuel, Selection.inlineFragment typeCondition sels, _, isList, acc =>
    -- exploreInlineFragment(inlineFragmentNode, isList)
    match typeCondition with
    | none => acc
    | some condName =>
      match schema.getType condName with
      | none => acc
      | some fieldType =>
        if isTypeWithFields (some fieldType) then
          let acc1 := if isList then addTypename acc fieldType.name else acc
          sels.foldl
            (fun a s => exploreSelections schema defs fuel s (some fieldType) false a)
            acc1
        else acc

/-- `getAdditionalTypenames()`: the constructor seeds the set from
`operation.context.additionalTypenames`; when the schema has no query type
the method returns the literal empty array; otherwise every operation
definition's top-level selections are explored against the query type with
the is-list flag false, and the set is returned in insertion order. -/
def getAdditionalTypenames (schema : GSchema) (defs : List Definition)
    (seed : List String) (fuel : Nat) : List String :=
  match schema.getQueryType with
  | none => []
  | some queryType =>
    defs.foldl
      (fun acc d =>
        match d with
        | Definition.operation sels =>
          sels.foldl
            (fun a s => exploreSelections schema defs fuel s (some queryType) false a)
            acc
        | Definition.fragmentDef _ => acc)
      (seed.foldl addTypename [])

/-- The operation context: the `additionalTypenames` hint list plus every
other context field, abstracted as a value of an arbitrary type `ρ` (the
object spread `{...operation.context}` copies those fields verbatim). -/
structure OperationContext (ρ : Type) where
  additionalTypenames : List String
  rest : ρ
deriving DecidableEq

/-- An urql operation as the exchange sees it: the parsed query document and
the operation context. -/
structure Operation (ρ : Type) where
  query : List Definition
  context : OperationContext ρ

/-- The diagnostic record `console.info` receives when `debug` is set: the
operation and the computed type-name list. -/
structure DebugLog (ρ : Type) where
  operation : Operation ρ
  additionalTypenames : List String

/-- The `getContext` callback of `exhaustiveAdditionalTypenamesExchange`:
runs the detector seeded from the operation's current hints, emits the
diagnostic record exactly when `debug` is true, and republishes the
context with `additionalTypenames` replaced and every other field spread
through unchanged.  The emitted record is returned alongside the context
to make the logging effect visible to the theorems. -/
def getContext {ρ : Type} (schema : GSchema) (debug : Bool) (fuel : Nat)
    (op : Operation ρ) : OperationContext ρ × Option (DebugLog ρ) :=
  let additionalTypenames :=
    getAdditionalTypenames schema op.query op.context.additionalTypenames fuel
  let log : Option (DebugLog ρ) :=
    if debug then some ⟨op, additionalTypenames⟩ else none
  ({ additionalTypenames := additionalTypenames, rest := op.context.rest }, log)

/-- Specification reading of fragment resolution, for comparison with
`resolveFragment`: the LAST fragment definition in document order whose
name matches. -/
def lastFragmentNamed (defs : List Definition) (fragmentName : String) :
    Option FragmentDefinitionNode :=
  ((defs.filterMap (fun d =>
      match d with
      | Definition.fragmentDef f => some f
      | Definition.operation _ => none)).filter
    (fun f => f.name = fragmentName)).getLast?

open GOutputType in
/-- The schema of the repository's test suite (a representative subset):
`Node` is an interface implemented by `User` and `Post`, and the root
`Query` type exposes interface-valued and object-valued list fields. -/
def sampleSchema : GSchema :=
  { types :=
      [ { name := "Node", kind := GTypeKind.interface,
          fields := [ { name := "id", type := nonNull (named "ID") } ] }
      , { name := "Post", kind := GTypeKind.object,
          fields :=
            [ { name := "id", type := nonNull (named "ID") }
            , { name := "title", type := nonNull (named "String") }
            , { name := "body", type := nonNull (named "String") } ] }
      , { name := "User", kind := GTypeKind.object,
          fields :=
            [ { name := "id", type := nonNull (named "ID") }
            , { name := "name", type := nonNull (named "String") }
            , { name := "posts", type := nonNull (list (nonNull (named "Post"))) } ] }
      , { name := "String", kind := GTypeKind.scalar, fields := [] }
      , { name := "ID", kind := GTypeKind.scalar, fields := [] }
      , { name := "Query", kind := GTypeKind.object,
          fields :=
            [ { name := "nodes", type := nonNull (list (nonNull (named "Node"))) }
            , { name := "node", type := named "Node" }
            , { name := "users", type := nonNull (list (nonNull (named "User"))) }
            , { name := "nullableUsers", type := list (named "User") } ] }
      ],
    queryTypeName := some "Query" }

/-- The document of scenario C:
`{ nodes { ... on User { name } ... on Post { body } } }`. -/
def scenarioCDoc : List Definition :=
  [ Definition.operation
      [ Selection.field "nodes"
          [ Selection.inlineFragment (some "User") [Selection.field "name" []]
          , Selection.inlineFragment (some "Post") [Selection.field "body" []] ] ] ]

/-- A document with a fragment spread directly under the interface-valued
list field `nodes`: `query { nodes { ...F } }` with
`fragment F on User { name }`. -/
def spreadUnderListDoc : List Definition :=
  [ Definition.fragmentDef
      { name := "F", typeCondition := "User",
        selections := [Selection.field "name" []] }
  , Definition.operation
      [ Selection.field "nodes" [Selection.fragmentSpread "F"] ] ]

/-- A schema whose query type cannot be resolved. -/
def noQuerySchema : GSchema := { types := [], queryTypeName := none }

/-- A document with two fragment definitions sharing the name `F`: the first
on `User` (would record `Post` through its `posts` list), the second on
`Query` (records `User` through `users`), and one operation spreading `F`. -/
def dupFragmentDoc : List Definition :=
  [ Definition.fragmentDef
      { name := "F", typeCondition := "User",
        selections := [Selection.field "posts" [Selection.field "title" []]] }
  , Definition.fragmentDef
      { name := "F", typeCondition := "Query",
        selections := [Selection.field "users" [Selection.field "name" []]] }
  , Definition.operation [Selection.fragmentSpread "F"] ]

/-- Recursive stripping of non-null wrappers only (specification reading of
the unwrapping step inside `isListType`). -/
def stripNonNull : GOutputType → GOutputType
  | GOutputType.nonNull t => stripNonNull t
  | GOutputType.list t => GOutputType.list t
  | GOutputType.named n => GOutputType.named n

/-! ## Accumulator lemmas -/

theorem addTypename_extends (acc : List String) (n : String) :
    acc <+: addTypename acc n := by
  unfold addTypename
  split
  · exact List.prefix_refl acc
  · exact List.prefix_append acc [n]

theorem mem_addTypename_self (acc : List String) (n : String) :
    n ∈ addTypename acc n := by
  unfold addTypename
  split
  · assumption
  · simp

theorem mem_addTypename_of_mem {acc : List String} {s : String} (n : String)
    (h : s ∈ acc) : s ∈ addTypename acc n :=
  (addTypename_extends acc n).subset h

theorem addTypename_nodup {acc : List String} (n : String) (h : acc.Nodup) :
    (addTypename acc n).Nodup := by
  unfold addTypename
  split
  · exact h
  · next hn => simpa [List.nodup_append] using ⟨h, hn⟩

theorem addListField_extends (field : GFieldDef) (acc : List String) :
    acc <+: addListFieldToAdditionalTypenames field acc := by
  unfold addListFieldToAdditionalTypenames
  split
  · exact addTypename_extends acc _
  · exact List.prefix_refl acc

theorem addListField_nodup (field : GFieldDef) {acc : List String}
    (h : acc.Nodup) : (addListFieldToAdditionalTypenames field acc).Nodup := by
  unfold addListFieldToAdditionalTypenames
  split
  · exact addTypename_nodup _ h
  · exact h

theorem foldl_extends {α : Type} (g : List String → α → List String)
    (hg : ∀ a x, a <+: g a x) :
    ∀ (l : List α) (acc : List String), acc <+: List.foldl g acc l
  | [], acc => List.prefix_refl acc
  | x :: l, acc => (hg acc x).trans (foldl_extends g hg l (g acc x))

theorem foldl_nodup {α : Type} (g : List String → α → List String)
    (hg : ∀ a x, a.Nodup → (g a x).Nodup) :
    ∀ (l : List α) (acc : List String), acc.Nodup → (List.foldl g acc l).Nodup
  | [], _, h => h
  | x :: l, acc, h => foldl_nodup g hg l (g acc x) (hg acc x h)

theorem mem_foldl_addTypename :
    ∀ (l : List String) (acc : List String) (s : String),
      s ∈ acc ∨ s ∈ l → s ∈ List.foldl addTypename acc l
  | [], _, _, h => h.elim id (fun hs => absurd hs (List.not_mem_nil _))
  | x :: l, acc, s, h => by
    rcases h with hs | hs
    · exact mem_foldl_addTypename l (addTypename acc x) s
        (Or.inl (mem_addTypename_of_mem x hs))
    · rcases List.mem_cons.mp hs with rfl | hs
      · exact mem_foldl_addTypename l (addTypename acc s) s
          (Or.inl (mem_addTypename_self acc s))
      · exact mem_foldl_addTypename l (addTypename acc x) s (Or.inr hs)

theorem foldl_addTypename_nodup (l : List String) (acc : List String)
    (h : acc.Nodup) : (List.foldl addTypename acc l).Nodup :=
  foldl_nodup addTypename (fun _ x => addTypename_nodup x) l acc h

/-- The accumulator only grows, as a prefix: every explored selection appends
newly discovered names after the names already recorded. -/
theorem explore_extends (schema : GSchema) (defs : List Definition) :
    ∀ (fuel : Nat) (sel : Selection) (pt : Option GTypeDef) (b : Bool)
      (acc : List String), acc <+: exploreSelections schema defs fuel sel pt b acc := by
  intro fuel
  induction fuel with
  | zero =>
    intro sel pt b acc
    exact List.prefix_refl acc
  | succ fuel ih =>
    intro sel pt b acc
    cases sel with
    | field fieldName sels =>
      simp only [exploreSelections]
      split
      · exact List.prefix_refl acc
      · split
        · split
          · exact List.prefix_refl acc
          · refine List.IsPrefix.trans ?_
              (foldl_extends _ (fun a s => ih s _ _ a) sels _)
            split
            · exact List.prefix_refl acc
            · exact addListField_extends _ acc
        · exact List.prefix_refl acc
    | fragmentSpread fragmentName =>
      simp only [exploreSelections]
      split
      · exact List.prefix_refl acc
      · split
        · exact List.prefix_refl acc
        · split
          · exact foldl_extends _ (fun a s => ih s _ _ a) _ acc
          · exact List.prefix_refl acc
    | inlineFragment typeCondition sels =>
      simp only [exploreSelections]
      split
      · exact List.prefix_refl acc
      · split
        · exact List.prefix_refl acc
        · split
          · refine List.IsPrefix.trans ?_
              (foldl_extends _ (fun a s => ih s _ _ a) sels _)
            split
            · exact addTypename_extends acc _
            · exact List.prefix_refl acc
          · exact List.prefix_refl acc

/-- The traversal preserves duplicate-freeness of the accumulator. -/
theorem explore_nodup (schema : GSchema) (defs : List Definition) :
    ∀ (fuel : Nat) (sel : Selection) (pt : Option GTypeDef) (b : Bool)
      (acc : List String), acc.Nodup →
      (exploreSelections schema defs fuel sel pt b acc).Nodup := by
  intro fuel
  induction fuel with
  | zero =>
    intro sel pt b acc h
    exact h
  | succ fuel ih =>
    intro sel pt b acc h
    cases sel with
    | field fieldName sels =>
      simp only [exploreSelections]
      split
      · exact h
      · split
        · split
          · exact h
          · refine foldl_nodup _ (fun a s => ih s _ _ a) sels _ ?_
            split
            · exact h
            · exact addListField_nodup _ h
        · exact h
    | fragmentSpread fragmentName =>
      simp only [exploreSelections]
      split
      · exact h
      · split
        · exact h
        · split
          · exact foldl_nodup _ (fun a s => ih s _ _ a) _ acc h
          · exact h
    | inlineFragment typeCondition sels =>
      simp only [exploreSelections]
      split
      · exact h
      · split
        · exact h
        · split
          · refine foldl_nodup _ (fun a s => ih s _ _ a) sels _ ?_
            split
            · exact addTypename_nodup _ h
            · exact h
          · exact h

/-! ## Detector-level lemmas -/

/-- One step of the per-definition loop of `getAdditionalTypenames` extends
the accumulator as a prefix. -/
theorem detectStep_extends (schema : GSchema) (defs : List Definition)
    (fuel : Nat) (qt : GTypeDef) (acc : List String) (d : Definition) :
    acc <+:
      (match d with
       | Definition.operation sels =>
         sels.foldl
           (fun a s => exploreSelections schema defs fuel s (some qt) false a) acc
       | Definition.fragmentDef _ => acc) := by
  cases d with
  | operation sels =>
    exact foldl_extends _ (fun a s => explore_extends schema defs fuel s _ _ a) sels acc
  | fragmentDef _ => exact List.prefix_refl acc

/-- One step of the per-definition loop preserves duplicate-freeness. -/
theorem detectStep_nodup (schema : GSchema) (defs : List Definition)
    (fuel : Nat) (qt : GTypeDef) (acc : List String) (d : Definition)
    (h : acc.Nodup) :
    (match d with
     | Definition.operation sels =>
       sels.foldl
         (fun a s => exploreSelections schema defs fuel s (some qt) false a) acc
     | Definition.fragmentDef _ => acc).Nodup := by
  cases d with
  | operation sels =>
    exact foldl_nodup _ (fun a s => explore_nodup schema defs fuel s _ _ a) sels acc h
  | fragmentDef _ => exact h

/-! ## Claim theorems: seed handling (C2, C3) -/

/-- C2 (amended: on a schema that exposes a root query type): the detection
result is duplicate-free, starts with the deduplicated caller-supplied
seed hints in their original relative order (the seed fold is a prefix of
the result), and contains every seed hint; the remainder after that prefix
is the newly discovered names in discovery order. -/
theorem detect_seed_shape (schema : GSchema) (defs : List Definition)
    (seed : List String) (fuel : Nat) (qt : GTypeDef)
    (h : schema.getQueryType = some qt) :
    (getAdditionalTypenames schema defs seed fuel).Nodup ∧
    (List.foldl addTypename [] seed) <+:
      getAdditionalTypenames schema defs seed fuel ∧
    ∀ s ∈ seed, s ∈ getAdditionalTypenames schema defs seed fuel := by
  simp only [getAdditionalTypenames, h]
  refine ⟨?_, ?_, ?_⟩
  · refine foldl_nodup _ (fun a d => ?_) defs _
      (foldl_addTypename_nodup seed [] List.nodup_nil)
    intro hn
    cases d with
    | operation sels =>
      exact foldl_nodup _ (fun a2 s => explore_nodup schema defs fuel s _ _ a2) sels a hn
    | fragmentDef f => exact hn
  · refine foldl_extends _ (fun a d => ?_) defs _
    cases d with
    | operation sels =>
      exact foldl_extends _ (fun a2 s => explore_extends schema defs fuel s _ _ a2) sels a
    | fragmentDef f => exact List.prefix_refl a
  · intro s hs
    refine List.IsPrefix.subset (foldl_extends _ (fun a d => ?_) defs _)
      (mem_foldl_addTypename seed [] s (Or.inr hs))
    cases d with
    | operation sels =>
      exact foldl_extends _ (fun a2 s2 => explore_extends schema defs fuel s2 _ _ a2) sels a
    | fragmentDef f => exact List.prefix_refl a

/-- Witness for `detect_seed_shape` at the sample schema, scenario C document
and seed `["Seed"]`. -/
theorem detect_seed_shape_witness :
    (getAdditionalTypenames sampleSchema scenarioCDoc ["Seed"] 10).Nodup ∧
    (List.foldl addTypename [] ["Seed"]) <+:
      getAdditionalTypenames sampleSchema scenarioCDoc ["Seed"] 10 ∧
    ∀ s ∈ (["Seed"] : List String),
      s ∈ getAdditionalTypenames sampleSchema scenarioCDoc ["Seed"] 10 :=
  detect_seed_shape sampleSchema scenarioCDoc ["Seed"] 10
    { name := "Query", kind := GTypeKind.object,
      fields :=
        [ { name := "nodes",
            type := GOutputType.nonNull
              (GOutputType.list (GOutputType.nonNull (GOutputType.named "Node"))) }
        , { name := "node", type := GOutputType.named "Node" }
        , { name := "users",
            type := GOutputType.nonNull
              (GOutputType.list (GOutputType.nonNull (GOutputType.named "User"))) }
        , { name := "nullableUsers",
            type := GOutputType.list (GOutputType.named "User") } ] }
    (by decide)

/-- Counterexample to C2 as stated: on a schema with no root query type the
detector returns the empty array, so a caller-supplied seed hint is absent
from the result. -/
theorem detect_seed_lost_noQueryType :
    "User" ∈ (["User"] : List String) ∧
    "User" ∉ getAdditionalTypenames noQuerySchema [] ["User"] 1 := by
  decide

/-- C3 (amended): on a schema that exposes no root query type, the detector
returns the empty sequence — a degenerate result rather than an error —
discarding the caller-supplied seed hints instead of returning them. -/
theorem detect_noQueryType_empty (schema : GSchema) (defs : List Definition)
    (seed : List String) (fuel : Nat) (h : schema.getQueryType = none) :
    getAdditionalTypenames schema defs seed fuel = [] := by
  simp only [getAdditionalTypenames, h]

/-- Witness for `detect_noQueryType_empty` at the query-less schema. -/
theorem detect_noQueryType_empty_witness :
    getAdditionalTypenames noQuerySchema scenarioCDoc ["User"] 7 = [] :=
  detect_noQueryType_empty noQuerySchema scenarioCDoc ["User"] 7 (by decide)

/-- Counterexample to C3 as stated: with seed `["Post"]` and no query type
the detector does not return the seeded hints unchanged. -/
theorem detect_noQueryType_not_seed :
    getAdditionalTypenames noQuerySchema [] ["Post"] 5 ≠ ["Post"] := by
  decide

/-! ## Claim theorems: branch pruning and flag threading (C4, C5) -/

/-- C4: every malformed reference — a parent type without selectable fields,
an unknown field name, an unresolvable fragment spread, or a fragment or
inline-fragment type condition naming a missing or fieldless type — makes
the traversal return the accumulator unchanged for that branch: nothing is
recorded and nothing below is visited.  The embedded traversal is a total
function, so no branch can raise an error. -/
theorem malformed_branches_pruned (schema : GSchema) (defs : List Definition)
    (fuel : Nat) (isList : Bool) (acc : List String) :
    (∀ fieldName sels parentType, isTypeWithFields parentType = false →
       exploreSelections schema defs (fuel + 1)
         (Selection.field fieldName sels) parentType isList acc = acc) ∧
    (∀ fieldName sels pt, getField pt fieldName = none →
       exploreSelections schema defs (fuel + 1)
         (Selection.field fieldName sels) (some pt) isList acc = acc) ∧
    (∀ n pt, resolveFragment defs n = none →
       exploreSelections schema defs (fuel + 1)
         (Selection.fragmentSpread n) pt isList acc = acc) ∧
    (∀ n pt frag, resolveFragment defs n = some frag →
       isTypeWithFields (schema.getType frag.typeCondition) = false →
       exploreSelections schema defs (fuel + 1)
         (Selection.fragmentSpread n) pt isList acc = acc) ∧
    (∀ sels pt,
       exploreSelections schema defs (fuel + 1)
         (Selection.inlineFragment none sels) pt isList acc = acc) ∧
    (∀ c sels pt, isTypeWithFields (schema.getType c) = false →
       exploreSelections schema defs (fuel + 1)
         (Selection.inlineFragment (some c) sels) pt isList acc = acc) := by
  refine ⟨?_, ?_, ?_, ?_, ?_, ?_⟩
  · intro fieldName sels parentType h
    cases parentType with
    | none => simp [exploreSelections]
    | some pt => simp [exploreSelections, h]
  · intro fieldName sels pt hf
    simp only [exploreSelections, hf]
    split <;> rfl
  · intro n pt h
    simp [exploreSelections, h]
  · intro n pt frag h1 h2
    cases ht : schema.getType frag.typeCondition with
    | none => simp [exploreSelections, h1, ht]
    | some td =>
      rw [ht] at h2
      simp [exploreSelections, h1, ht, h2]
  · intro sels pt
    simp [exploreSelections]
  · intro c sels pt h
    cases ht : schema.getType c with
    | none => simp [exploreSelections, ht]
    | some td =>
      rw [ht] at h
      simp [exploreSelections, ht, h]

/-- Witness for `malformed_branches_pruned`: each pruning case evaluated at a
concrete malformed selection against the sample schema. -/
theorem malformed_branches_pruned_witness :
    exploreSelections sampleSchema [] (0 + 1)
      (Selection.field "x" []) none true ["A"] = ["A"] ∧
    exploreSelections sampleSchema [] (0 + 1)
      (Selection.field "missing" [])
      (some { name := "Node", kind := GTypeKind.interface,
              fields := [ { name := "id",
                            type := GOutputType.nonNull (GOutputType.named "ID") } ] })
      true ["A"] = ["A"] ∧
    exploreSelections sampleSchema [] (0 + 1)
      (Selection.fragmentSpread "F") none true ["A"] = ["A"] ∧
    exploreSelections sampleSchema
      [Definition.fragmentDef
        { name := "G", typeCondition := "String", selections := [] }] (0 + 1)
      (Selection.fragmentSpread "G") none true ["A"] = ["A"] ∧
    exploreSelections sampleSchema [] (0 + 1)
      (Selection.inlineFragment none []) none true ["A"] = ["A"] ∧
    exploreSelections sampleSchema [] (0 + 1)
      (Selection.inlineFragment (some "String") []) none true ["A"] = ["A"] :=
  ⟨(malformed_branches_pruned sampleSchema [] 0 true ["A"]).1 "x" [] none (by decide),
   (malformed_branches_pruned sampleSchema [] 0 true ["A"]).2.1 "missing" []
     { name := "Node", kind := GTypeKind.interface,
       fields := [ { name := "id",
                     type := GOutputType.nonNull (GOutputType.named "ID") } ] }
     (by rfl),
   (malformed_branches_pruned sampleSchema [] 0 true ["A"]).2.2.1 "F" none (by rfl),
   (malformed_branches_pruned sampleSchema
       [Definition.fragmentDef
         { name := "G", typeCondition := "String", selections := [] }] 0 true
       ["A"]).2.2.2.1 "G" none
     { name := "G", typeCondition := "String", selections := [] } (by rfl) (by decide),
   (malformed_branches_pruned sampleSchema [] 0 true ["A"]).2.2.2.2.1 [] none,
   (malformed_branches_pruned sampleSchema [] 0 true ["A"]).2.2.2.2.2 "String" []
     none (by decide)⟩

/-- C5: a resolved fragment spread recurses into the fragment's selections
with the ambient is-list flag passed down unchanged, while an inline
fragment recurses into its selections with the is-list flag always false,
after recording the condition type's name exactly when the incoming flag
was true. -/
theorem list_flag_threading (schema : GSchema) (defs : List Definition)
    (fuel : Nat) (isList : Bool) (acc : List String) :
    (∀ n pt frag td, resolveFragment defs n = some frag →
       schema.getType frag.typeCondition = some td →
       isTypeWithFields (some td) = true →
       exploreSelections schema defs (fuel + 1)
         (Selection.fragmentSpread n) pt isList acc =
         frag.selections.foldl
           (fun a s => exploreSelections schema defs fuel s (some td) isList a)
           acc) ∧
    (∀ c sels pt td, schema.getType c = some td →
       isTypeWithFields (some td) = true →
       exploreSelections schema defs (fuel + 1)
         (Selection.inlineFragment (some c) sels) pt isList acc =
         sels.foldl
           (fun a s => exploreSelections schema defs fuel s (some td) false a)
           (if isList then addTypename acc td.name else acc)) := by
  constructor
  · intro n pt frag td h1 h2 h3
    simp [exploreSelections, h1, h2, h3]
  · intro c sels pt td h1 h2
    simp [exploreSelections, h1, h2]

/-- Witness for `list_flag_threading` at a one-type schema and a one-fragment
document. -/
theorem list_flag_threading_witness :
    (exploreSelections
        { types := [ { name := "U", kind := GTypeKind.object, fields := [] } ],
          queryTypeName := none }
        [Definition.fragmentDef
          { name := "F", typeCondition := "U", selections := [] }] (0 + 1)
        (Selection.fragmentSpread "F") none true ["A"] = ["A"]) ∧
    (exploreSelections
        { types := [ { name := "U", kind := GTypeKind.object, fields := [] } ],
          queryTypeName := none }
        [Definition.fragmentDef
          { name := "F", typeCondition := "U", selections := [] }] (0 + 1)
        (Selection.inlineFragment (some "U") []) none true ["A"] =
      addTypename ["A"] "U") :=
  ⟨(list_flag_threading
      { types := [ { name := "U", kind := GTypeKind.object, fields := [] } ],
        queryTypeName := none }
      [Definition.fragmentDef
        { name := "F", typeCondition := "U", selections := [] }] 0 true ["A"]).1
      "F" none { name := "F", typeCondition := "U", selections := [] }
      { name := "U", kind := GTypeKind.object, fields := [] }
      (by rfl) (by rfl) (by decide),
   (list_flag_threading
      { types := [ { name := "U", kind := GTypeKind.object, fields := [] } ],
        queryTypeName := none }
      [Definition.fragmentDef
        { name := "F", typeCondition := "U", selections := [] }] 0 true ["A"]).2
      "U" [] none { name := "U", kind := GTypeKind.object, fields := [] }
      (by rfl) (by decide)⟩

/-! ## Claim theorems: list-type test (C6) -/

/-- C6: `isListType` holds exactly when the type, after recursively stripping
non-null wrappers, is a list wrapper; in particular the declared forms
`[X]`, `[X]!`, `[X!]` and `[X!]!` all test true while `X` and `X!` test
false. -/
theorem isListType_spec :
    (∀ t : GOutputType,
       isListType t = true ↔ ∃ u, stripNonNull t = GOutputType.list u) ∧
    (∀ n : String,
       isListType (GOutputType.list (GOutputType.named n)) = true ∧
       isListType (GOutputType.nonNull (GOutputType.list (GOutputType.named n)))
         = true ∧
       isListType (GOutputType.list (GOutputType.nonNull (GOutputType.named n)))
         = true ∧
       isListType (GOutputType.nonNull
         (GOutputType.list (GOutputType.nonNull (GOutputType.named n)))) = true ∧
       isListType (GOutputType.named n) = false ∧
       isListType (GOutputType.nonNull (GOutputType.named n)) = false) := by
  constructor
  · intro t
    induction t with
    | named n => simp [isListType, stripNonNull]
    | list u ih => simp [isListType, stripNonNull]
    | nonNull u ih => simpa [isListType, stripNonNull] using ih
  · intro n
    exact ⟨rfl, rfl, rfl, rfl, rfl, rfl⟩

/-! ## Claim theorems: inline-fragment recording (C9) -/

/-- C9: an inline fragment whose type condition resolves to an interface type
of the schema, explored while the is-list flag is true, records that
interface type's own name in the result: the recording step accepts any
type with selectable fields and does not restrict to concrete object
types. -/
theorem inline_interface_recorded (schema : GSchema) (defs : List Definition)
    (fuel : Nat) (c : String) (sels : List Selection) (pt : Option GTypeDef)
    (acc : List String) (td : GTypeDef) (ht : schema.getType c = some td)
    (hk : td.kind = GTypeKind.interface) :
    td.name ∈ exploreSelections schema defs (fuel + 1)
      (Selection.inlineFragment (some c) sels) pt true acc := by
  have hf : isTypeWithFields (some td) = true := by
    simp [isTypeWithFields, hk]
  simp only [exploreSelections, ht, hf, if_true]
  refine List.IsPrefix.subset
    (foldl_extends _ (fun a s => explore_extends schema defs fuel s _ _ a) sels _)
    ?_
  exact mem_addTypename_self acc td.name

/-- Witness for `inline_interface_recorded`: `... on Node` under a true
is-list flag records the interface name `Node`. -/
theorem inline_interface_recorded_witness :
    "Node" ∈ exploreSelections sampleSchema [] (0 + 1)
      (Selection.inlineFragment (some "Node") []) none true [] :=
  inline_interface_recorded sampleSchema [] 0 "Node" [] none []
    { name := "Node", kind := GTypeKind.interface,
      fields := [ { name := "id",
                    type := GOutputType.nonNull (GOutputType.named "ID") } ] }
    (by rfl) (by rfl)

/-! ## Claim theorems: interface-valued list fields (C1) -/

/-- C1 (amended): the field-selection rule never records the element type
name of a list field whose named type is an interface — the traversal
passes the untouched accumulator into the field's sub-selections — and
each inline fragment under such a field whose type condition names a type
with selectable fields records that condition's type name; fragment
spreads do not themselves record their type condition.  Concretely,
scenario C `{ nodes { ... on User { name } ... on Post { body } } }`
yields `["User", "Post"]` and not `"Node"`. -/
theorem interface_list_fields (schema : GSchema) (defs : List Definition)
    (fuel : Nat) :
    (∀ fieldName sels pt b acc field,
       isTypeWithFields (some pt) = true →
       getField pt fieldName = some field →
       isInterfaceType (schema.getType (getNamedType field.type)) = true →
       exploreSelections schema defs (fuel + 1)
         (Selection.field fieldName sels) (some pt) b acc =
         sels.foldl
           (fun a s => exploreSelections schema defs fuel s
             (schema.getType (getNamedType field.type)) (isListType field.type) a)
           acc) ∧
    (∀ c sels pt acc td,
       schema.getType c = some td →
       isTypeWithFields (some td) = true →
       td.name ∈ exploreSelections schema defs (fuel + 1)
         (Selection.inlineFragment (some c) sels) pt true acc) ∧
    (getAdditionalTypenames sampleSchema scenarioCDoc [] 10 = ["User", "Post"] ∧
     "Node" ∉ getAdditionalTypenames sampleSchema scenarioCDoc [] 10) := by
  refine ⟨?_, ?_, by decide⟩
  · intro fieldName sels pt b acc field h1 h2 h3
    simp [exploreSelections, h1, h2, h3]
  · intro c sels pt acc td ht hf
    simp only [exploreSelections, ht, hf, if_true]
    refine List.IsPrefix.subset
      (foldl_extends _ (fun a s => explore_extends schema defs fuel s _ _ a) sels _)
      ?_
    exact mem_addTypename_self acc td.name

/-- Witness for `interface_list_fields`: the interface-valued list field
`nodes` on `Query` records nothing by itself, and `... on User` under a
true is-list flag records `"User"`. -/
theorem interface_list_fields_witness :
    (exploreSelections sampleSchema [] (0 + 1)
        (Selection.field "nodes" [])
        (some { name := "Query", kind := GTypeKind.object,
                fields :=
                  [ { name := "nodes",
                      type := GOutputType.nonNull (GOutputType.list
                        (GOutputType.nonNull (GOutputType.named "Node"))) }
                  , { name := "node", type := GOutputType.named "Node" }
                  , { name := "users",
                      type := GOutputType.nonNull (GOutputType.list
                        (GOutputType.nonNull (GOutputType.named "User"))) }
                  , { name := "nullableUsers",
                      type := GOutputType.list (GOutputType.named "User") } ] })
        false [] = []) ∧
    "User" ∈ exploreSelections sampleSchema [] (0 + 1)
      (Selection.inlineFragment (some "User") []) none true [] :=
  ⟨(interface_list_fields sampleSchema [] 0).1 "nodes" []
      { name := "Query", kind := GTypeKind.object,
        fields :=
          [ { name := "nodes",
              type := GOutputType.nonNull (GOutputType.list
                (GOutputType.nonNull (GOutputType.named "Node"))) }
          , { name := "node", type := GOutputType.named "Node" }
          , { name := "users",
              type := GOutputType.nonNull (GOutputType.list
                (GOutputType.nonNull (GOutputType.named "User"))) }
          , { name := "nullableUsers",
              type := GOutputType.list (GOutputType.named "User") } ] }
      false []
      { name := "nodes",
        type := GOutputType.nonNull (GOutputType.list
          (GOutputType.nonNull (GOutputType.named "Node"))) }
      (by decide) (by rfl) (by rfl),
   (interface_list_fields sampleSchema [] 0).2.1 "User" [] none []
      { name := "User", kind := GTypeKind.object,
        fields :=
          [ { name := "id", type := GOutputType.nonNull (GOutputType.named "ID") }
          , { name := "name",
              type := GOutputType.nonNull (GOutputType.named "String") }
          , { name := "posts",
              type := GOutputType.nonNull (GOutputType.list
                (GOutputType.nonNull (GOutputType.named "Post"))) } ] }
      (by rfl) (by decide)⟩

/-- Counterexample to C1 as stated: under the interface-valued list field
`nodes`, a fragment spread `...F` with `fragment F on User` — `User` a
type with selectable fields — does not put `"User"` into the result; only
inline fragments record their type condition. -/
theorem spread_condition_not_recorded :
    (sampleSchema.getType "Node").map (fun td => td.kind)
      = some GTypeKind.interface ∧
    ((sampleSchema.getType "Query").bind (fun td => getField td "nodes")).map
      (fun f => isListType f.type) = some true ∧
    ((sampleSchema.getType "Query").bind (fun td => getField td "nodes")).map
      (fun f => getNamedType f.type) = some "Node" ∧
    isTypeWithFields (sampleSchema.getType "User") = true ∧
    (resolveFragment spreadUnderListDoc "F").isSome = true ∧
    "User" ∉ getAdditionalTypenames sampleSchema spreadUnderListDoc [] 10 := by
  decide

/-! ## Claim theorems: fragment resolution (C10) -/

/-- A fold that keeps the latest element satisfying a decidable predicate
computes the last match of the list, falling back to the initial value. -/
theorem foldl_lastMatch {α : Type} (P : α → Prop) [DecidablePred P]
    (l : List α) (init : Option α) :
    l.foldl (fun found f => if P f then some f else found) init =
      match (l.filter (fun f => P f)).getLast? with
      | some x => some x
      | none => init := by
  induction l using List.reverseRecOn generalizing init with
  | nil => rfl
  | append_singleton l a ih =>
    rw [List.foldl_append, List.filter_append]
    by_cases hp : P a
    · simp [hp]
    · simp [hp, ih]

/-- C10: fragment-spread resolution returns the LAST fragment definition in
document order whose name matches (later duplicates overwrite earlier ones
in the name map), never an earlier duplicate.  Concretely, with two
fragments named `F` the spread resolves to the second one, and the
detection result reflects the second fragment's body. -/
theorem resolveFragment_lastWins :
    (∀ (defs : List Definition) (n : String),
       resolveFragment defs n = lastFragmentNamed defs n) ∧
    (resolveFragment dupFragmentDoc "F").map (fun f => f.typeCondition)
      = some "Query" ∧
    getAdditionalTypenames sampleSchema dupFragmentDoc [] 10 = ["User"] := by
  refine ⟨?_, by decide, by decide⟩
  intro defs n
  simp only [resolveFragment, lastFragmentNamed]
  rw [foldl_lastMatch]
  cases ((defs.filterMap (fun d =>
      match d with
      | Definition.fragmentDef f => some f
      | Definition.operation _ => none)).filter
        (fun f => f.name = n)).getLast? <;> rfl

/-! ## Claim theorems: exchange stage context handling (C7, C8) -/

/-- C7: the republished operation context is the incoming context with only
the `additionalTypenames` field replaced by the detector's seeded-plus-
discovered sequence; every other context field (abstracted by `rest`) is
passed through unchanged. -/
theorem context_only_typenames_replaced {ρ : Type} (schema : GSchema)
    (debug : Bool) (fuel : Nat) (op : Operation ρ) :
    (getContext schema debug fuel op).1 =
      { op.context with
          additionalTypenames :=
            getAdditionalTypenames schema op.query
              op.context.additionalTypenames fuel } ∧
    (getContext schema debug fuel op).1.rest = op.context.rest :=
  ⟨rfl, rfl⟩

/-- C8: the computed type-name sequence (and the whole republished context)
is identical whether the debug option is true or false; the flag only
decides whether the diagnostic record is emitted. -/
theorem debug_flag_no_result_effect {ρ : Type} (schema : GSchema) (fuel : Nat)
    (op : Operation ρ) :
    (∀ d1 d2 : Bool,
       (getContext schema d1 fuel op).1 = (getContext schema d2 fuel op).1) ∧
    (getContext schema true fuel op).2 =
      some { operation := op,
             additionalTypenames :=
               getAdditionalTypenames schema op.query
                 op.context.additionalTypenames fuel } ∧
    (getContext schema false fuel op).2 = none :=
  ⟨fun _ _ => rfl, rfl, rfl⟩
